/-
  Verification of the sphinxit core (connector.py and sql_engine.py):
  a shallow embedding of the driver registry, engine error translation,
  connection pool and batch query executor, with theorems settling the
  specification's claims about them.
-/
import Mathlib

set_option maxHeartbeats 1000000

namespace Sphinxit

/-! ## Driver-level exceptions and normalized errors

A Python exception, as far as the code inspects it: its type name
(`type(e).__name__`), the `errno, msg, extra = e` unpacking used by
`OurSqlEngine.raise_for_exception`, and its message. -/

structure PyExn where
  typeName : String
  errno : Option Int
  msg : String
deriving Repr, DecidableEq

/-- Errors the sphinxit core itself raises (`exceptions.py` kinds used by
`connector.py` and `sql_engine.py`), plus the `IndexError` a
`deque.pop()` on an empty deque would raise. -/
inductive SphinxError where
  | improperlyConfigured
  | sphinxQLDriver (msg : String)
  | indexError
deriving Repr, DecidableEq

/-! ## Engine classes and the driver registry (`sql_engine.py`) -/

/-- The concrete `AbstractSqlEngine` subclasses defined in `sql_engine.py`. -/
inductive EngineClass where
  | ourSqlEngine
  | pyMySqlEngine
  | mySqlDbEngine
  | cyMySqlEngine
  | uMySqlEngine
deriving Repr, DecidableEq

/-- A Python `dict` assignment `d[k] = v` on an association list: replaces the
value at an existing key in place, otherwise appends the new binding.
(All dicts in this model are built by `dictSet` from `[]`, so keys are
unique, exactly as in a Python dict.) -/
def dictSet {α : Type} : List (String × α) → String → α → List (String × α)
  | [], k, v => [(k, v)]
  | (k', v') :: rest, k, v =>
      if k' = k then (k, v) :: rest else (k', v') :: dictSet rest k v

/-- Python `d.get(k)`: the value bound to `k`, or `none`. -/
def dictGet {α : Type} : List (String × α) → String → Option α
  | [], _ => none
  | (k', v) :: rest, k => if k' = k then some v else dictGet rest k

/-- The process-wide `_driver_registry` mapping engine names to classes. -/
abbrev Registry := List (String × EngineClass)

/-- `register_engine(name)` applied to a class: `_driver_registry[name] = cls`. -/
def registerEngine (name : String) (cls : EngineClass) (r : Registry) : Registry :=
  dictSet r name cls

/-- `get_engine_class(name)`: `_driver_registry.get(name)`. -/
def getEngineClass (r : Registry) (name : String) : Option EngineClass :=
  dictGet r name

/-- `list_engine_names()`: `sorted(_driver_registry.keys())`. -/
def listEngineNames (r : Registry) : List String :=
  List.insertionSort (fun a b => a ≤ b) (r.map (fun p => p.1))

/-- The registry as populated at module import time of `sql_engine.py`.
Decorators stack bottom-up, so `@register_engine('pymysql')` over
`@register_engine('mysqldb')` registers `mysqldb` first, then `pymysql`,
both to `PyMySqlEngine`. -/
def builtRegistry : Registry :=
  ([] : Registry)
  |> registerEngine "oursql" .ourSqlEngine
  |> registerEngine "mysqldb" .pyMySqlEngine
  |> registerEngine "pymysql" .pyMySqlEngine
  |> registerEngine "mysqldb1" .mySqlDbEngine
  |> registerEngine "cymysql" .cyMySqlEngine
  |> registerEngine "umysqldb" .uMySqlEngine

/-! ## Error translation (`raise_for_exception`)

`AbstractSqlEngine.raise_for_exception` always raises
`SphinxQLDriverException(e)`.  `OurSqlEngine` overrides it: only an
exception whose type name is `ProgrammingError` is unpacked, and only a
non-null `errno` raises `SphinxQLDriverException(msg)`; in every other
case the method returns normally (the exception is swallowed).
`some err` models "raises err", `none` models "returns normally". -/
def raiseForException (eng : EngineClass) (e : PyExn) : Option SphinxError :=
  match eng with
  | .ourSqlEngine =>
      if e.typeName = "ProgrammingError" then
        match e.errno with
        | some _ => some (.sphinxQLDriver e.msg)
        | none => none
      else
        none
  | _ => some (.sphinxQLDriver e.msg)

/-! ## The executor's view of the daemon

A `DictCursor` row is a mapping from column name to value.  The daemon
(as observed through `engine.execute(cursor, q)` followed by iterating
or `fetchall()`-ing the cursor) is modelled as a function from query
text to either the fetched rows or the driver exception the execution
raised. -/

abbrev Row := List (String × String)

abbrev Env := String → Except PyExn (List Row)

/-- The configuration fields `connector.py` reads: `SQL_ENGINE`,
`getattr(config, 'POOL_SIZE', 10)`, `getattr(config, 'WITH_META', False)`,
`getattr(config, 'WITH_STATUS', False)`. -/
structure Config where
  sqlEngine : String
  poolSize : Nat := 10
  withMeta : Bool := false
  withStatus : Bool := false
deriving Repr, DecidableEq

/-- `(x[k1], x[k2])` for a row `x`: a missing key raises a `KeyError`
(an ordinary exception, caught by the `except Exception` in `execute`). -/
def rowPair (k1 k2 : String) (x : Row) : Except PyExn (String × String) :=
  match dictGet x k1 with
  | none => .error ⟨"KeyError", none, k1⟩
  | some v1 =>
      match dictGet x k2 with
      | none => .error ⟨"KeyError", none, k2⟩
      | some v2 => .ok (v1, v2)

/-- The list comprehension `[(x[k1], x[k2]) for x in raw_result]`:
materializes the pairs left to right, the first missing key raising. -/
def rowPairs (k1 k2 : String) : List Row → Except PyExn (List (String × String))
  | [] => .ok []
  | x :: rest =>
      match rowPair k1 k2 x with
      | .error e => .error e
      | .ok p =>
          match rowPairs k1 k2 rest with
          | .error e => .error e
          | .ok ps => .ok (p :: ps)

/-- `dict([(x[k1], x[k2]) for x in raw_result])`. -/
def normalizePairs (k1 k2 : String) (raw : List Row) :
    Except PyExn (List (String × String)) :=
  match rowPairs k1 k2 raw with
  | .error e => .error e
  | .ok ps => .ok (ps.foldl (fun d p => dictSet d p.1 p.2) [])

/-- `SphinxConnector._normalize_meta`. -/
def normalizeMeta (raw : List Row) : Except PyExn (List (String × String)) :=
  normalizePairs "Variable_name" "Value" raw

/-- `SphinxConnector._normalize_status`. -/
def normalizeStatus (raw : List Row) : Except PyExn (List (String × String)) :=
  normalizePairs "Counter" "Value" raw

/-- The per-alias `subresult` dict of `_execute_batch`: always an
`'items'` key, a `'meta'` key when `WITH_META` is set, a `'status'` key
when `WITH_STATUS` is set. -/
structure SubResult where
  items : List Row
  meta : Option (List (String × String)) := none
  status : Option (List (String × String)) := none
deriving Repr, DecidableEq

/-- The `total_results` dict of batch mode: alias → subresult. -/
abbrev BatchResult := List (String × SubResult)

/-- The `WITH_META` block of `_execute_batch`: executes `SHOW META` and
normalizes its rows.  Returns the queries it executed together with the
optional normalized mapping (or the exception raised). -/
def runMetaBlock (cfg : Config) (env : Env) :
    List String × Except PyExn (Option (List (String × String))) :=
  if cfg.withMeta then
    match env "SHOW META" with
    | .error e => (["SHOW META"], .error e)
    | .ok raw =>
        match normalizeMeta raw with
        | .error e => (["SHOW META"], .error e)
        | .ok m => (["SHOW META"], .ok (some m))
  else ([], .ok none)

/-- The `WITH_STATUS` block of `_execute_batch`. -/
def runStatusBlock (cfg : Config) (env : Env) :
    List String × Except PyExn (Option (List (String × String))) :=
  if cfg.withStatus then
    match env "SHOW STATUS" with
    | .error e => (["SHOW STATUS"], .error e)
    | .ok raw =>
        match normalizeStatus raw with
        | .error e => (["SHOW STATUS"], .error e)
        | .ok m => (["SHOW STATUS"], .ok (some m))
  else ([], .ok none)

/-- `SphinxConnector._execute_batch`: processes the `(query, alias)` pairs
in order, accumulating `total_results` (the `acc` argument, `{}` at the
top-level call).  Also records, in order, every query text handed to
`engine.execute`, so that abort-on-failure behaviour is observable.
An exception stops the loop at once and propagates. -/
def execBatch (cfg : Config) (env : Env) :
    List (String × String) → BatchResult → List String × Except PyExn BatchResult
  | [], acc => ([], .ok acc)
  | (subQl, subAlias) :: rest, acc =>
      match env subQl with
      | .error e => ([subQl], .error e)
      | .ok rows =>
          let mb := runMetaBlock cfg env
          match mb.2 with
          | .error e => (subQl :: mb.1, .error e)
          | .ok metaRes =>
              let sb := runStatusBlock cfg env
              match sb.2 with
              | .error e => (subQl :: (mb.1 ++ sb.1), .error e)
              | .ok statusRes =>
                  let sub : SubResult :=
                    { items := rows, meta := metaRes, status := statusRes }
                  let k := execBatch cfg env rest (dictSet acc subAlias sub)
                  (subQl :: (mb.1 ++ sb.1 ++ k.1), k.2)

/-! ## The connection pool -/

/-- The pool state: `createdCount` counts every connection
`engine.get_connection()` has ever produced (connections are numbered
`0, 1, 2, ...` in creation order), `idle` is the
`__connections_pool` deque (head = left end, last = right end), and
`checkedOut` the connections handed out and not yet returned. -/
structure PoolState where
  createdCount : Nat
  idle : List Nat
  checkedOut : List Nat
deriving Repr, DecidableEq

/-- The pool as `__init__` leaves it: `deque([])`, nothing created. -/
def initialPool : PoolState := ⟨0, [], []⟩

/-- The pool-filling part of `_init_connection_pool`:
`if not self.__connections_pool:` append `POOL_SIZE` fresh connections.
(The `if not self.engine: raise` guard is handled by the caller.) -/
def initConnectionPool (poolSize : Nat) (ps : PoolState) : PoolState :=
  if ps.idle.isEmpty then
    { ps with
      createdCount := ps.createdCount + poolSize,
      idle := ps.idle ++ (List.range poolSize).map (fun i => ps.createdCount + i) }
  else ps

/-- `self.__connections_pool.pop()`: pops from the right end of the deque;
`none` models the `IndexError` of popping an empty deque. -/
def popConn (ps : PoolState) : Option (Nat × PoolState) :=
  match ps.idle.getLast? with
  | none => none
  | some c =>
      some (c, { ps with idle := ps.idle.dropLast, checkedOut := c :: ps.checkedOut })

/-- The release half of `get_connection`:
`self.__connections_pool.appendleft(local_connection)`. -/
def releaseConn (c : Nat) (ps : PoolState) : PoolState :=
  { ps with idle := c :: ps.idle, checkedOut := ps.checkedOut.erase c }

/-! ## Pool acquisition traces

An abstract trace of pool operations, used to settle the creation-count
claims: each `acquire` runs `_init_connection_pool` then `pop` (the body
of `get_connection` before the `yield`), each `release` returns the most
recently acquired still-outstanding connection (the code after the
`yield`). -/

inductive PoolOp where
  | acquire
  | release
deriving Repr, DecidableEq

/-- One acquisition: lazily fill if the idle deque is empty, then pop.
(When `poolSize = 0` the pop has nothing to take; the state is left
after the fill, mirroring the raised `IndexError`.) -/
def acquireStep (poolSize : Nat) (ps : PoolState) : PoolState :=
  let ps1 := initConnectionPool poolSize ps
  match popConn ps1 with
  | none => ps1
  | some cps => cps.2

/-- One release: the head of `checkedOut` goes back to the left end of the
idle deque; with nothing checked out this is a no-op. -/
def releaseStep (ps : PoolState) : PoolState :=
  match ps.checkedOut with
  | [] => ps
  | c :: _ => releaseConn c ps

/-- Run a trace of pool operations. -/
def runPoolOps (poolSize : Nat) : List PoolOp → PoolState → PoolState
  | [], ps => ps
  | .acquire :: rest, ps => runPoolOps poolSize rest (acquireStep poolSize ps)
  | .release :: rest, ps => runPoolOps poolSize rest (releaseStep ps)

/-- Decidable guard on a trace: every `acquire` happens either before any
connection exists (the first, filling acquisition) or while the idle
deque is non-empty (so `_init_connection_pool` does not refill). -/
def acquiresFindIdle (poolSize : Nat) : List PoolOp → PoolState → Bool
  | [], _ => true
  | .acquire :: rest, ps =>
      (ps.createdCount == 0 || !ps.idle.isEmpty)
        && acquiresFindIdle poolSize rest (acquireStep poolSize ps)
  | .release :: rest, ps => acquiresFindIdle poolSize rest (releaseStep ps)

/-- Whether a trace contains at least one acquisition. -/
def hasAcquire (ops : List PoolOp) : Bool :=
  ops.any (fun o => o == .acquire)

/-! ## The connector (`SphinxConnector`) -/

/-- The connector state after `__init__`: the chosen engine (or `None`),
the pool, and the thread-local `conn` slot. -/
structure ConnectorState where
  engine : Option EngineClass
  pool : PoolState
  localConn : Option Nat
deriving Repr, DecidableEq

/-- `SphinxConnector.__init__`: looks the `SQL_ENGINE` name up in the
registry; an unknown name only logs a warning, and an `ImportError` from
the engine constructor (`importOk cls = false`) is caught and logged.
Construction itself never raises; a missing engine leaves
`self.engine = None`. -/
def mkConnector (r : Registry) (importOk : EngineClass → Bool) (cfg : Config) :
    ConnectorState :=
  { engine :=
      match getEngineClass r cfg.sqlEngine with
      | none => none
      | some cls => if importOk cls then some cls else none,
    pool := initialPool,
    localConn := none }

/-- The argument of `SphinxConnector.execute`: a bare string, or a
tuple/list of `(query, alias)` pairs. -/
inductive QueryItem where
  | single (q : String)
  | batch (pairs : List (String × String))
deriving Repr, DecidableEq

/-- What `execute` returns: `_execute_query`'s flat `fetchall()` list, or
a `total_results` dict (batch mode, and also the initial `{}` that is
returned when a swallowed exception aborted execution). -/
inductive ExecResult where
  | rows (items : List Row)
  | table (d : BatchResult)
deriving Repr, DecidableEq

/-- The `try` body of `execute`: dispatch on the shape of the query item,
recording executed queries. -/
def runQueryItem (cfg : Config) (env : Env) :
    QueryItem → List String × Except PyExn ExecResult
  | .single q =>
      match env q with
      | .error e => ([q], .error e)
      | .ok rows => ([q], .ok (.rows rows))
  | .batch pairs =>
      let k := execBatch cfg env pairs []
      (k.1, k.2.map .table)

instance {ε α : Type} [DecidableEq ε] [DecidableEq α] : DecidableEq (Except ε α) :=
  fun x y =>
    match x, y with
    | .ok a, .ok b =>
        if h : a = b then isTrue (by rw [h]) else isFalse (fun hc => h (by cases hc; rfl))
    | .error a, .error b =>
        if h : a = b then isTrue (by rw [h]) else isFalse (fun hc => h (by cases hc; rfl))
    | .ok _, .error _ => isFalse (fun hc => Except.noConfusion hc)
    | .error _, .ok _ => isFalse (fun hc => Except.noConfusion hc)

/-- The outcome of one `execute` call: the connector state afterwards,
the returned value or raised error, and the queries actually executed. -/
structure ExecOutcome where
  state : ConnectorState
  result : Except SphinxError ExecResult
  executed : List String
deriving Repr, DecidableEq

/-- `SphinxConnector.execute`, including the `get_connection` context
manager it runs inside.  Faithful to the source in particular here: the
generator body of `get_connection` has no `try/finally` around its
`yield`, so when the body of the `with` raises (i.e. when
`raise_for_exception` re-raises), the code after the `yield` never runs —
the connection is not appended back to the pool and the thread-local slot
keeps pointing at it.  A swallowed exception leaves `total_results` as
the initial `{}`. -/
def executeModel (cfg : Config) (env : Env) (st : ConnectorState)
    (q : QueryItem) : ExecOutcome :=
  match st.engine with
  | none => ⟨st, .error .improperlyConfigured, []⟩
  | some eng =>
      let ps := initConnectionPool cfg.poolSize st.pool
      match popConn ps with
      | none => ⟨{ st with pool := ps }, .error .indexError, []⟩
      | some cps =>
          let c := cps.1
          let st1 : ConnectorState := { st with pool := cps.2, localConn := some c }
          let k := runQueryItem cfg env q
          match k.2 with
          | .ok res =>
              ⟨{ st1 with pool := releaseConn c cps.2, localConn := none },
               .ok res, k.1⟩
          | .error e =>
              match raiseForException eng e with
              | some err => ⟨st1, .error err, k.1⟩
              | none =>
                  ⟨{ st1 with pool := releaseConn c cps.2, localConn := none },
                   .ok (.table []), k.1⟩

/-! ## Concrete fixtures

A small deterministic daemon and some configurations, used to evaluate the
model at concrete inputs. -/

/-- A concrete daemon: two ordinary queries, a query raising a driver
error, a query raising the benign `ProgrammingError` with null code, and
the two introspection queries. -/
def envA : Env := fun q =>
  if q = "SELECT 1" then .ok [[("id", "1")]]
  else if q = "SELECT 2" then .ok [[("id", "2")]]
  else if q = "BAD" then .error ⟨"OperationalError", some 2013, "server gone"⟩
  else if q = "BENIGN" then .error ⟨"ProgrammingError", none, "no error"⟩
  else if q = "SHOW META" then .ok [[("Variable_name", "total"), ("Value", "5")]]
  else if q = "SHOW STATUS" then .ok [[("Counter", "uptime"), ("Value", "9")]]
  else .ok []

/-- Every engine library imports successfully. -/
def allImportsOk : EngineClass → Bool := fun _ => true

/-- A pymysql configuration with a pool of one connection. -/
def cfgPy : Config := { sqlEngine := "pymysql", poolSize := 1 }

/-- An oursql configuration with a pool of one connection. -/
def cfgOur : Config := { sqlEngine := "oursql", poolSize := 1 }

/-- A pymysql configuration with `WITH_META` and `WITH_STATUS` enabled. -/
def cfgMeta : Config :=
  { sqlEngine := "pymysql", poolSize := 1, withMeta := true, withStatus := true }

/-- A configuration naming an engine that is not in the registry. -/
def cfgBad : Config := { sqlEngine := "postgres" }

/-- The connector for `cfgPy`. -/
def stPy : ConnectorState := mkConnector builtRegistry allImportsOk cfgPy

/-- The connector for `cfgOur`. -/
def stOur : ConnectorState := mkConnector builtRegistry allImportsOk cfgOur

/-- The connector for `cfgMeta`. -/
def stMeta : ConnectorState := mkConnector builtRegistry allImportsOk cfgMeta

/-- The connector for `cfgBad`. -/
def stBad : ConnectorState := mkConnector builtRegistry allImportsOk cfgBad

/-- A daemon on which every query succeeds, given by its row function. -/
def fA : String → List Row := fun q =>
  if q = "SELECT 1" then [[("id", "1")]]
  else if q = "SELECT 2" then [[("id", "2")]]
  else if q = "SHOW META" then [[("Variable_name", "total"), ("Value", "5")]]
  else if q = "SHOW STATUS" then [[("Counter", "uptime"), ("Value", "9")]]
  else []

/-- The sub-result `_execute_batch` stores for a pair whose query text is
`ql`, when every query succeeds: its `items` are the daemon's rows for
`ql`, and `meta`/`status` are present exactly when the respective option
is enabled. -/
def mkSubResult (cfg : Config) (f : String → List Row)
    (metaD statD : List (String × String)) (ql : String) : SubResult :=
  { items := f ql,
    meta := if cfg.withMeta then some metaD else none,
    status := if cfg.withStatus then some statD else none }

/-! ## Helper lemmas on dicts -/

theorem dictGet_dictSet {α : Type} (d : List (String × α)) (k k' : String) (v : α) :
    dictGet (dictSet d k v) k' = if k' = k then some v else dictGet d k' := by
  induction d with
  | nil =>
      by_cases h : k' = k
      · simp [dictSet, dictGet, h]
      · simp [dictSet, dictGet, h, Ne.symm h]
  | cons p rest ih =>
      obtain ⟨kk, vv⟩ := p
      by_cases hk : kk = k
      · subst hk
        by_cases h : k' = kk
        · simp [dictSet, dictGet, h]
        · simp [dictSet, dictGet, h, Ne.symm h]
      · by_cases h : kk = k'
        · subst h
          simp [dictSet, dictGet, hk, Ne.symm hk]
        · simp [dictSet, dictGet, hk, h, ih]

theorem dictGet_eq_none_of_not_mem {α : Type} (d : List (String × α)) (n : String)
    (h : ∀ p ∈ d, p.1 ≠ n) : dictGet d n = none := by
  induction d with
  | nil => rfl
  | cons p rest ih =>
      obtain ⟨kk, vv⟩ := p
      have hp : kk ≠ n := h (kk, vv) (by simp)
      simp [dictGet, hp]
      exact ih (fun q hq => h q (by simp [hq]))

/-! ## Claim theorems -/

/-- Claim C7 (confirmed): the driver registry contract.  A later
`register_engine` of the same name overwrites the earlier constructor;
lookup of a registered name returns its constructor and lookup of a
never-registered name returns none; `list_engine_names` returns the
registered names sorted; and the names `pymysql` and `mysqldb` are both
registered to `PyMySqlEngine`. -/
theorem registry_contract :
    (∀ (r : Registry) (n : String) (c₁ c₂ : EngineClass),
        getEngineClass (registerEngine n c₂ (registerEngine n c₁ r)) n = some c₂)
    ∧ (∀ (r : Registry) (n : String) (c : EngineClass),
        getEngineClass (registerEngine n c r) n = some c)
    ∧ (∀ (r : Registry) (n : String),
        (∀ p ∈ r, p.1 ≠ n) → getEngineClass r n = none)
    ∧ (∀ r : Registry,
        List.Sorted (fun a b : String => a ≤ b) (listEngineNames r)
          ∧ (listEngineNames r).Perm (r.map (fun p => p.1)))
    ∧ getEngineClass builtRegistry "pymysql" = some .pyMySqlEngine
    ∧ getEngineClass builtRegistry "mysqldb" = some .pyMySqlEngine := by
  refine ⟨?_, ?_, ?_, ?_, by decide, by decide⟩
  · intro r n c₁ c₂
    simp [getEngineClass, registerEngine, dictGet_dictSet]
  · intro r n c
    simp [getEngineClass, registerEngine, dictGet_dictSet]
  · intro r n h
    exact dictGet_eq_none_of_not_mem r n h
  · intro r
    exact ⟨List.sorted_insertionSort _ _, List.perm_insertionSort _ _⟩

/-- Witness for C7: the never-registered name `sqlite` looks up to none. -/
theorem registry_contract_witness :
    (∀ p ∈ builtRegistry, p.1 ≠ "sqlite")
      ∧ getEngineClass builtRegistry "sqlite" = none :=
  ⟨by decide, registry_contract.2.2.1 builtRegistry "sqlite" (by decide)⟩

/-- Claim C3 counterexample: the claim says every oursql exception with a
non-null error code raises the normalized error, but the code inspects the
code only for exceptions whose type name is `ProgrammingError`; an
`InterfaceError` with error code 2013 is swallowed. -/
theorem oursql_translation_cex :
    (PyExn.mk "InterfaceError" (some 2013) "lost connection").errno ≠ none
      ∧ raiseForException .ourSqlEngine
          (PyExn.mk "InterfaceError" (some 2013) "lost connection") = none := by
  exact ⟨by decide, by decide⟩

/-- Claim C3 (corrected): for the oursql variant, only exceptions of type
`ProgrammingError` are inspected: a null error code is swallowed and a
non-null code raises the normalized error carrying the message, while an
oursql exception of any other type is swallowed regardless of its code;
every other engine variant always raises the normalized error. -/
theorem oursql_translation :
    (∀ e : PyExn, e.typeName = "ProgrammingError" → e.errno = none →
        raiseForException .ourSqlEngine e = none)
    ∧ (∀ (e : PyExn) (n : Int), e.typeName = "ProgrammingError" → e.errno = some n →
        raiseForException .ourSqlEngine e = some (.sphinxQLDriver e.msg))
    ∧ (∀ e : PyExn, e.typeName ≠ "ProgrammingError" →
        raiseForException .ourSqlEngine e = none)
    ∧ (∀ (eng : EngineClass) (e : PyExn), eng ≠ .ourSqlEngine →
        raiseForException eng e = some (.sphinxQLDriver e.msg)) := by
  refine ⟨?_, ?_, ?_, ?_⟩
  · intro e ht hn
    simp [raiseForException, ht, hn]
  · intro e n ht hn
    simp [raiseForException, ht, hn]
  · intro e ht
    simp [raiseForException, ht]
  · intro eng e h
    cases eng <;> first | rfl | exact absurd rfl h

/-- Witness for C3: a `ProgrammingError` with code 1064 raises the
normalized error with the underlying message. -/
theorem oursql_translation_witness :
    raiseForException .ourSqlEngine (PyExn.mk "ProgrammingError" (some 1064) "syntax error")
      = some (.sphinxQLDriver "syntax error") :=
  oursql_translation.2.1 (PyExn.mk "ProgrammingError" (some 1064) "syntax error") 1064 rfl rfl

/-- Claim C5 (confirmed): constructing a client whose `SQL_ENGINE` is not
registered, or whose library fails to import, does not raise —
`mkConnector` returns a well-formed state with `engine = None` and an
untouched pool — and the configuration error is raised on `execute`,
before any query runs. -/
theorem misconfigured_client :
    ∀ (r : Registry) (importOk : EngineClass → Bool) (cfg : Config)
      (env : Env) (q : QueryItem),
      (getEngineClass r cfg.sqlEngine = none
        ∨ ∃ cls, getEngineClass r cfg.sqlEngine = some cls ∧ importOk cls = false) →
      (mkConnector r importOk cfg).engine = none
        ∧ (mkConnector r importOk cfg).pool = initialPool
        ∧ (executeModel cfg env (mkConnector r importOk cfg) q).result
            = .error .improperlyConfigured
        ∧ (executeModel cfg env (mkConnector r importOk cfg) q).executed = [] := by
  intro r importOk cfg env q h
  have he : (mkConnector r importOk cfg).engine = none := by
    rcases h with h | ⟨cls, h1, h2⟩
    · simp [mkConnector, h]
    · simp [mkConnector, h1, h2]
  exact ⟨he, rfl, by simp [executeModel, he], by simp [executeModel, he]⟩

/-- Witness for C5: the unregistered name `postgres` yields a constructed
client whose first `execute` raises the configuration error. -/
theorem misconfigured_client_witness :
    getEngineClass builtRegistry cfgBad.sqlEngine = none
      ∧ (executeModel cfgBad envA (mkConnector builtRegistry allImportsOk cfgBad)
          (.single "SELECT 1")).result = .error .improperlyConfigured :=
  ⟨by decide,
   (misconfigured_client builtRegistry allImportsOk cfgBad envA
      (.single "SELECT 1") (Or.inl (by decide))).2.2.1⟩

/-- With a positive pool size, the idle deque is never empty right after
`_init_connection_pool` runs. -/
theorem initConnectionPool_idle_ne_nil (n : Nat) (ps : PoolState) (h : 1 ≤ n) :
    (initConnectionPool n ps).idle ≠ [] := by
  unfold initConnectionPool
  split
  · intro hc
    simp [List.range_eq_nil] at hc
    omega
  · rename_i hne
    simpa using hne

/-- Claim C8 (confirmed): executing a bare query string returns the flat
ordered row list of `fetchall`, not the nested alias-keyed batch
structure, and executes exactly that query. -/
theorem bare_string_flat_rows :
    ∀ (cfg : Config) (env : Env) (st : ConnectorState) (eng : EngineClass)
      (q : String) (rows : List Row),
      st.engine = some eng → 1 ≤ cfg.poolSize → env q = .ok rows →
      (executeModel cfg env st (.single q)).result = .ok (.rows rows)
        ∧ (executeModel cfg env st (.single q)).executed = [q] := by
  intro cfg env st eng q rows he hp hq
  have hne := initConnectionPool_idle_ne_nil cfg.poolSize st.pool hp
  have hs : (initConnectionPool cfg.poolSize st.pool).idle.getLast?.isSome :=
    List.getLast?_isSome.mpr hne
  obtain ⟨c, hc⟩ := Option.isSome_iff_exists.mp hs
  constructor <;> simp [executeModel, he, popConn, hc, runQueryItem, hq]

/-- Witness for C8: `SELECT 1` on the pymysql fixture returns its single
row as a flat list. -/
theorem bare_string_flat_rows_witness :
    (executeModel cfgPy envA stPy (.single "SELECT 1")).result
        = .ok (.rows [[("id", "1")]])
      ∧ (executeModel cfgPy envA stPy (.single "SELECT 1")).executed
        = ["SELECT 1"] :=
  bare_string_flat_rows cfgPy envA stPy .pyMySqlEngine "SELECT 1" [[("id", "1")]]
    (by decide) (by decide) (by decide)

/-- Claim C10 (confirmed): with the oursql engine, a swallowed exception
while executing a batch makes `execute` return the initial empty
`total_results` dict: sub-results collected for earlier batch items are
discarded. -/
theorem swallowed_batch_empty :
    ∀ (cfg : Config) (env : Env) (st : ConnectorState)
      (pairs : List (String × String)) (e : PyExn),
      st.engine = some .ourSqlEngine → 1 ≤ cfg.poolSize →
      (execBatch cfg env pairs []).2 = .error e →
      raiseForException .ourSqlEngine e = none →
      (executeModel cfg env st (.batch pairs)).result = .ok (.table []) := by
  intro cfg env st pairs e he hp hb hsw
  have hne := initConnectionPool_idle_ne_nil cfg.poolSize st.pool hp
  have hs : (initConnectionPool cfg.poolSize st.pool).idle.getLast?.isSome :=
    List.getLast?_isSome.mpr hne
  obtain ⟨c, hc⟩ := Option.isSome_iff_exists.mp hs
  simp [executeModel, he, popConn, hc, runQueryItem, hb, hsw, Except.map]

/-- Witness for C10: the first batch item succeeds, the second raises the
benign null-code `ProgrammingError`; `execute` returns the empty dict. -/
theorem swallowed_batch_empty_witness :
    (execBatch cfgOur envA [("SELECT 1", "a"), ("BENIGN", "b")] []).2
        = .error (PyExn.mk "ProgrammingError" none "no error")
      ∧ (executeModel cfgOur envA stOur
          (.batch [("SELECT 1", "a"), ("BENIGN", "b")])).result = .ok (.table []) :=
  ⟨by decide,
   swallowed_batch_empty cfgOur envA stOur [("SELECT 1", "a"), ("BENIGN", "b")]
     (PyExn.mk "ProgrammingError" none "no error")
     (by decide) (by decide) (by decide) (by decide)⟩

/-- Claim C2 (code bug): the claim says the acquired connection is
returned to the idle pool on every exit path of `execute`.  The
`get_connection` generator has no `try/finally` around its `yield`, so
when `raise_for_exception` re-raises, the post-`yield` release never
runs: evaluating the model at a failing query shows the raised error
leaves the idle pool empty, the connection still checked out and the
thread-local slot still bound, while the successful call does return the
connection. -/
theorem connection_leak_on_error :
    (executeModel cfgPy envA stPy (.single "BAD")).result
        = .error (.sphinxQLDriver "server gone")
      ∧ (executeModel cfgPy envA stPy (.single "BAD")).state.pool.idle = []
      ∧ (executeModel cfgPy envA stPy (.single "BAD")).state.pool.checkedOut = [0]
      ∧ (executeModel cfgPy envA stPy (.single "BAD")).state.localConn = some 0
      ∧ (executeModel cfgPy envA stPy (.single "SELECT 1")).state.pool.idle = [0]
      ∧ (executeModel cfgPy envA stPy (.single "SELECT 1")).state.pool.checkedOut
          = [] := by
  decide

/-- On an all-succeeding daemon the meta block returns the normalized
`SHOW META` mapping exactly when `WITH_META` is enabled. -/
theorem runMetaBlock_env_ok (cfg : Config) (f : String → List Row)
    (metaD : List (String × String))
    (hm : normalizeMeta (f "SHOW META") = .ok metaD) :
    runMetaBlock cfg (fun q => .ok (f q))
      = (if cfg.withMeta then ["SHOW META"] else [],
         .ok (if cfg.withMeta then some metaD else none)) := by
  cases hw : cfg.withMeta <;> simp [runMetaBlock, hw, hm]

/-- On an all-succeeding daemon the status block returns the normalized
`SHOW STATUS` mapping exactly when `WITH_STATUS` is enabled. -/
theorem runStatusBlock_env_ok (cfg : Config) (f : String → List Row)
    (statD : List (String × String))
    (hs : normalizeStatus (f "SHOW STATUS") = .ok statD) :
    runStatusBlock cfg (fun q => .ok (f q))
      = (if cfg.withStatus then ["SHOW STATUS"] else [],
         .ok (if cfg.withStatus then some statD else none)) := by
  cases hw : cfg.withStatus <;> simp [runStatusBlock, hw, hs]

/-- On an all-succeeding daemon, `_execute_batch` is the left fold of
dict assignment of the expected sub-result over the pairs in order. -/
theorem execBatch_env_ok (cfg : Config) (f : String → List Row)
    (metaD statD : List (String × String))
    (hm : normalizeMeta (f "SHOW META") = .ok metaD)
    (hs : normalizeStatus (f "SHOW STATUS") = .ok statD) :
    ∀ (pairs : List (String × String)) (acc : BatchResult),
      (execBatch cfg (fun q => .ok (f q)) pairs acc).2
        = .ok (pairs.foldl
            (fun d p => dictSet d p.2 (mkSubResult cfg f metaD statD p.1)) acc) := by
  intro pairs
  induction pairs with
  | nil => intro acc; rfl
  | cons p rest ih =>
      intro acc
      obtain ⟨ql, al⟩ := p
      simp [execBatch, runMetaBlock_env_ok cfg f metaD hm,
        runStatusBlock_env_ok cfg f statD hs, ih, mkSubResult]

/-- Looking an alias up in the folded dict finds the last pair with that
alias, or falls through to the accumulator. -/
theorem dictGet_foldl_dictSet (sub : String → SubResult) :
    ∀ (pairs : List (String × String)) (acc : BatchResult) (a : String),
      dictGet (pairs.foldl (fun d p => dictSet d p.2 (sub p.1)) acc) a
        = match (pairs.filter (fun p => p.2 = a)).getLast? with
          | some p => some (sub p.1)
          | none => dictGet acc a := by
  intro pairs
  induction pairs with
  | nil => intro acc a; rfl
  | cons p rest ih =>
      intro acc a
      obtain ⟨ql, al⟩ := p
      by_cases hal : al = a
      · rw [List.foldl_cons, ih]
        have hf : ((ql, al) :: rest).filter (fun p => p.2 = a)
            = (ql, al) :: rest.filter (fun p => p.2 = a) := by
          simp [List.filter_cons, hal]
        rw [hf, List.getLast?_cons]
        cases hq : (rest.filter (fun p => p.2 = a)).getLast? with
        | some q => simp [hq]
        | none => simp [hq, dictGet_dictSet, hal]
      · rw [List.foldl_cons, ih]
        have hf : ((ql, al) :: rest).filter (fun p => p.2 = a)
            = rest.filter (fun p => p.2 = a) := by
          simp [List.filter_cons, hal]
        rw [hf]
        cases hq : (rest.filter (fun p => p.2 = a)).getLast? with
        | some q => simp [hq]
        | none => simp [hq, dictGet_dictSet, Ne.symm hal]

/-- Claim C4 (confirmed): on an all-succeeding daemon, batch execution
processes the pairs in order and stores one sub-result per alias, the
later of two pairs with the same alias winning: looking up any alias in
the result yields the expected sub-result of the last pair carrying it;
and the empty batch yields the empty dict and executes no query. -/
theorem batch_last_write_wins :
    ∀ (cfg : Config) (f : String → List Row) (pairs : List (String × String))
      (metaD statD : List (String × String)) (a : String),
      normalizeMeta (f "SHOW META") = .ok metaD →
      normalizeStatus (f "SHOW STATUS") = .ok statD →
      (∃ d : BatchResult,
        (execBatch cfg (fun q => .ok (f q)) pairs []).2 = .ok d
          ∧ dictGet d a
            = ((pairs.filter (fun p => p.2 = a)).getLast?).map
                (fun p => mkSubResult cfg f metaD statD p.1))
        ∧ execBatch cfg (fun q => .ok (f q)) [] [] = ([], .ok []) := by
  intro cfg f pairs metaD statD a hm hs
  refine ⟨⟨_, execBatch_env_ok cfg f metaD statD hm hs pairs [], ?_⟩, rfl⟩
  rw [dictGet_foldl_dictSet (mkSubResult cfg f metaD statD)]
  cases hq : (pairs.filter (fun p => p.2 = a)).getLast? <;> simp [hq, dictGet]

/-- Witness for C4: two pairs with the same alias `a`; the lookup finds
the sub-result of the second query (last write wins). -/
theorem batch_last_write_wins_witness :
    normalizeMeta (fA "SHOW META") = .ok [("total", "5")]
      ∧ ∃ d : BatchResult,
          (execBatch cfgMeta (fun q => .ok (fA q))
              [("SELECT 1", "a"), ("SELECT 2", "a")] []).2 = .ok d
            ∧ dictGet d "a"
              = (([("SELECT 1", "a"), ("SELECT 2", "a")].filter
                    (fun p => p.2 = "a")).getLast?).map
                  (fun p => mkSubResult cfgMeta fA [("total", "5")] [("uptime", "9")] p.1) :=
  ⟨by decide,
   (batch_last_write_wins cfgMeta fA [("SELECT 1", "a"), ("SELECT 2", "a")]
      [("total", "5")] [("uptime", "9")] "a" (by decide) (by decide)).1⟩

/-- Rows that all carry both keys normalize without error, to the dict of
their key/value projections. -/
theorem normalizePairs_of_shape (k1 k2 : String) :
    ∀ rows : List Row,
      (∀ x ∈ rows, (dictGet x k1).isSome ∧ (dictGet x k2).isSome) →
      normalizePairs k1 k2 rows
        = .ok ((rows.map (fun x =>
            ((dictGet x k1).getD "", (dictGet x k2).getD ""))).foldl
            (fun d p => dictSet d p.1 p.2) []) := by
  have hmap : ∀ rows : List Row,
      (∀ x ∈ rows, (dictGet x k1).isSome ∧ (dictGet x k2).isSome) →
      rowPairs k1 k2 rows
        = .ok (rows.map (fun x =>
            ((dictGet x k1).getD "", (dictGet x k2).getD ""))) := by
    intro rows
    induction rows with
    | nil => intro _; rfl
    | cons x rest ih =>
        intro h
        obtain ⟨v1, hv1⟩ := Option.isSome_iff_exists.mp (h x (by simp)).1
        obtain ⟨v2, hv2⟩ := Option.isSome_iff_exists.mp (h x (by simp)).2
        have hrest := ih (fun y hy => h y (by simp [hy]))
        simp [rowPairs, rowPair, hv1, hv2, hrest]
  intro rows h
  simp [normalizePairs, hmap rows h]

/-- Claim C9 (confirmed): with `WITH_META` and `WITH_STATUS` enabled, a
batch sub-result's `meta` is the flat mapping sending each
`{Variable_name, Value}` row's `Variable_name` to its `Value`, and its
`status` is the same transformation of the `{Counter, Value}` rows; in
particular rows `[{Variable_name: total, Value: 5}]` normalize to
`{total: 5}` and `[{Counter: uptime, Value: 9}]` to `{uptime: 9}`. -/
theorem meta_status_flat_mapping :
    (∀ (cfg : Config) (f : String → List Row) (ql a : String),
      cfg.withMeta = true → cfg.withStatus = true →
      (∀ x ∈ f "SHOW META",
          (dictGet x "Variable_name").isSome ∧ (dictGet x "Value").isSome) →
      (∀ x ∈ f "SHOW STATUS",
          (dictGet x "Counter").isSome ∧ (dictGet x "Value").isSome) →
      ∃ d : BatchResult,
        (execBatch cfg (fun q => .ok (f q)) [(ql, a)] []).2 = .ok d
          ∧ dictGet d a = some
              { items := f ql,
                meta := some (((f "SHOW META").map (fun x =>
                    ((dictGet x "Variable_name").getD "",
                     (dictGet x "Value").getD ""))).foldl
                    (fun d p => dictSet d p.1 p.2) []),
                status := some (((f "SHOW STATUS").map (fun x =>
                    ((dictGet x "Counter").getD "",
                     (dictGet x "Value").getD ""))).foldl
                    (fun d p => dictSet d p.1 p.2) []) })
    ∧ normalizeMeta [[("Variable_name", "total"), ("Value", "5")]]
        = .ok [("total", "5")]
    ∧ normalizeStatus [[("Counter", "uptime"), ("Value", "9")]]
        = .ok [("uptime", "9")] := by
  refine ⟨?_, by decide, by decide⟩
  intro cfg f ql a hwm hws hshm hshs
  have hm := normalizePairs_of_shape "Variable_name" "Value" (f "SHOW META") hshm
  have hs := normalizePairs_of_shape "Counter" "Value" (f "SHOW STATUS") hshs
  refine ⟨_, execBatch_env_ok cfg f _ _ hm hs [(ql, a)] [], ?_⟩
  simp [mkSubResult, dictGet, dictSet, hwm, hws]

/-- Witness for C9: the meta fixture daemon yields the flat meta and
status mappings inside the stored sub-result. -/
theorem meta_status_flat_mapping_witness :
    ∃ d : BatchResult,
      (execBatch cfgMeta (fun q => .ok (fA q)) [("SELECT 1", "a")] []).2 = .ok d
        ∧ dictGet d "a" = some
            { items := fA "SELECT 1",
              meta := some (((fA "SHOW META").map (fun x =>
                  ((dictGet x "Variable_name").getD "",
                   (dictGet x "Value").getD ""))).foldl
                  (fun d p => dictSet d p.1 p.2) []),
              status := some (((fA "SHOW STATUS").map (fun x =>
                  ((dictGet x "Counter").getD "",
                   (dictGet x "Value").getD ""))).foldl
                  (fun d p => dictSet d p.1 p.2) []) } :=
  meta_status_flat_mapping.1 cfgMeta fA "SELECT 1" "a" rfl rfl
    (by decide) (by decide)

/-- When a prefix of a batch succeeds, executing the concatenation first
runs the prefix, then continues on the rest from the accumulated dict. -/
theorem execBatch_append (cfg : Config) (env : Env) :
    ∀ (pre rest : List (String × String)) (acc d : BatchResult),
      (execBatch cfg env pre acc).2 = .ok d →
      execBatch cfg env (pre ++ rest) acc
        = ((execBatch cfg env pre acc).1 ++ (execBatch cfg env rest d).1,
           (execBatch cfg env rest d).2) := by
  intro pre
  induction pre with
  | nil =>
      intro rest acc d h
      have hacc : acc = d := by simpa [execBatch] using h
      subst hacc
      simp [execBatch]
  | cons p pre' ih =>
      intro rest acc d h
      obtain ⟨ql, al⟩ := p
      cases henv : env ql with
      | error e => simp [execBatch, henv] at h
      | ok rows =>
          cases hm : (runMetaBlock cfg env).2 with
          | error e => simp [execBatch, henv, hm] at h
          | ok metaRes =>
              cases hs2 : (runStatusBlock cfg env).2 with
              | error e => simp [execBatch, henv, hm, hs2] at h
              | ok statusRes =>
                  have h' : (execBatch cfg env pre'
                      (dictSet acc al
                        { items := rows, meta := metaRes, status := statusRes })).2
                      = .ok d := by
                    simpa [execBatch, henv, hm, hs2] using h
                  simp [execBatch, henv, hm, hs2, ih rest _ d h']

/-- A failing single pair aborts at once: it alone is executed and the
exception propagates. -/
theorem execBatch_cons_error (cfg : Config) (env : Env)
    (qf af : String) (post : List (String × String)) (acc : BatchResult)
    (e : PyExn) (hqf : env qf = .error e) :
    execBatch cfg env ((qf, af) :: post) acc = ([qf], .error e) := by
  simp [execBatch, hqf]

/-- Claim C6 (confirmed): if a batch pair's query raises an error that the
engine does not swallow, then after the queries of the preceding pairs
only the failing query itself runs — no query of any later pair is
executed — and the normalized error propagates out of `execute`. -/
theorem failing_query_aborts_batch :
    ∀ (cfg : Config) (env : Env) (st : ConnectorState) (eng : EngineClass)
      (pre post : List (String × String)) (qf af : String) (e : PyExn)
      (d : BatchResult) (err : SphinxError),
      st.engine = some eng → 1 ≤ cfg.poolSize →
      (execBatch cfg env pre []).2 = .ok d →
      env qf = .error e →
      raiseForException eng e = some err →
      (executeModel cfg env st (.batch (pre ++ (qf, af) :: post))).result
          = .error err
        ∧ (executeModel cfg env st (.batch (pre ++ (qf, af) :: post))).executed
            = (execBatch cfg env pre []).1 ++ [qf] := by
  intro cfg env st eng pre post qf af e d err he hp hpre hqf herr
  have happ := execBatch_append cfg env pre ((qf, af) :: post) [] d hpre
  rw [execBatch_cons_error cfg env qf af post d e hqf] at happ
  have hne := initConnectionPool_idle_ne_nil cfg.poolSize st.pool hp
  have hsome : (initConnectionPool cfg.poolSize st.pool).idle.getLast?.isSome :=
    List.getLast?_isSome.mpr hne
  obtain ⟨c, hc⟩ := Option.isSome_iff_exists.mp hsome
  constructor <;>
    simp [executeModel, he, popConn, hc, runQueryItem, happ, herr, Except.map]

/-- Witness for C6: `SELECT 1` succeeds, `BAD` fails, and the later
`SELECT 2` never runs; the normalized error propagates. -/
theorem failing_query_aborts_batch_witness :
    (executeModel cfgPy envA stPy
        (.batch [("SELECT 1", "a"), ("BAD", "b"), ("SELECT 2", "c")])).result
        = .error (.sphinxQLDriver "server gone")
      ∧ (executeModel cfgPy envA stPy
          (.batch [("SELECT 1", "a"), ("BAD", "b"), ("SELECT 2", "c")])).executed
          = (execBatch cfgPy envA [("SELECT 1", "a")] []).1 ++ ["BAD"] :=
  failing_query_aborts_batch cfgPy envA stPy .pyMySqlEngine
    [("SELECT 1", "a")] [("SELECT 2", "c")] "BAD" "b"
    (PyExn.mk "OperationalError" (some 2013) "server gone")
    [("a", { items := [[("id", "1")]] })] (.sphinxQLDriver "server gone")
    (by decide) (by decide) (by decide) (by decide) (by decide)

/-- Popping never changes how many connections have been created. -/
theorem acquireStep_createdCount (n : Nat) (ps : PoolState) :
    (acquireStep n ps).createdCount = (initConnectionPool n ps).createdCount := by
  cases h : (initConnectionPool n ps).idle.getLast? <;>
    simp [acquireStep, popConn, h]

/-- Releasing never changes how many connections have been created. -/
theorem releaseStep_createdCount (ps : PoolState) :
    (releaseStep ps).createdCount = ps.createdCount := by
  cases h : ps.checkedOut <;> simp [releaseStep, releaseConn, h]

/-- `_init_connection_pool` does nothing while the idle deque is
non-empty. -/
theorem initConnectionPool_of_ne_nil (n : Nat) (ps : PoolState)
    (h : ps.idle ≠ []) : initConnectionPool n ps = ps := by
  simp [initConnectionPool, h]

/-- Once `n` connections exist, a trace whose acquisitions always find
the idle deque non-empty never creates more. -/
theorem runPoolOps_created_stable (n : Nat) (hn : 1 ≤ n) :
    ∀ (ops : List PoolOp) (ps : PoolState),
      ps.createdCount = n → acquiresFindIdle n ops ps = true →
      (runPoolOps n ops ps).createdCount = n := by
  intro ops
  induction ops with
  | nil => intro ps h _; exact h
  | cons op rest ih =>
      intro ps h hg
      cases op with
      | acquire =>
          rw [acquiresFindIdle, Bool.and_eq_true] at hg
          have hne : ps.idle ≠ [] := by
            rcases Bool.or_eq_true_iff.mp hg.1 with h0 | h1
            · exfalso
              have : ps.createdCount = 0 := by simpa using h0
              omega
            · simpa using h1
          have hstep : (acquireStep n ps).createdCount = n := by
            rw [acquireStep_createdCount, initConnectionPool_of_ne_nil n ps hne, h]
          exact ih (acquireStep n ps) hstep hg.2
      | release =>
          have hstep : (releaseStep ps).createdCount = n := by
            rw [releaseStep_createdCount, h]
          exact ih (releaseStep ps) hstep hg

/-- Claim C1 counterexample: with the default `POOL_SIZE` of 10, eleven
overlapping acquisitions (the idle deque drained while ten connections
are checked out) make the pool create a second batch: twenty connections
are created, exceeding `POOL_SIZE`, against the claim that exactly ten
are ever created. -/
theorem pool_refill_cex :
    (runPoolOps 10 (List.replicate 11 .acquire) initialPool).createdCount = 20
      ∧ ¬((runPoolOps 10 (List.replicate 11 .acquire) initialPool).createdCount
          ≤ 10) := by
  decide

/-- Claim C1 (corrected): connection creation is lazy but not
once-and-for-all: `_init_connection_pool` creates `POOL_SIZE` connections
whenever an acquisition finds the idle deque empty.  Before any
acquisition nothing is created; and exactly `POOL_SIZE` connections are
ever created provided every acquisition after the first finds the idle
deque non-empty — while an acquisition arriving with all connections
checked out creates `POOL_SIZE` more. -/
theorem pool_creation_lazy (n : Nat) (hn : 1 ≤ n) :
    ∀ ops : List PoolOp,
      acquiresFindIdle n ops initialPool = true →
      (runPoolOps n ops initialPool).createdCount
        = (if hasAcquire ops then n else 0) := by
  intro ops
  induction ops with
  | nil => intro _; rfl
  | cons op rest ih =>
      intro hg
      cases op with
      | acquire =>
          have h1 : (acquireStep n initialPool).createdCount = n := by
            rw [acquireStep_createdCount]
            simp [initConnectionPool, initialPool]
          rw [acquiresFindIdle, Bool.and_eq_true] at hg
          have := runPoolOps_created_stable n hn rest (acquireStep n initialPool)
            h1 hg.2
          simpa [runPoolOps, hasAcquire] using this
      | release =>
          have hrel : releaseStep initialPool = initialPool := rfl
          have hg' : acquiresFindIdle n rest initialPool = true := by
            rw [acquiresFindIdle, hrel] at hg
            exact hg
          have := ih hg'
          simpa [runPoolOps, hrel, hasAcquire] using this

/-- Witness for C1: a serialized acquire/release/acquire trace with pool
size 10 creates exactly 10 connections. -/
theorem pool_creation_lazy_witness :
    acquiresFindIdle 10 [.acquire, .release, .acquire] initialPool = true
      ∧ (runPoolOps 10 [.acquire, .release, .acquire] initialPool).createdCount
          = (if hasAcquire [PoolOp.acquire, .release, .acquire] then 10 else 0) :=
  ⟨by decide,
   pool_creation_lazy 10 (by decide) [.acquire, .release, .acquire] (by decide)⟩

end Sphinxit
